import Mathlib

/-!
Shallow embedding of the EchoesInTheCloud chat server and client.

Server side (unnamed server file, feature-complete variant with delete /
edit / read-receipt support): a Mongo-backed message collection, an
in-memory `onlineUsers` map from socket id to display name, and one
socket.io handler per inbound event.  Each handler is embedded as a pure
function from the current state and the event payload to the new state
together with the list of outbound sends it performs.

Client side (Chat.js and its evolved variant): the reconciler state
(messages, isAtBottom, unseenCount) and the typing aggregator, embedded
as state transitions; the aggregator's setTimeout timers are modelled as
an explicit map from subject name to scheduled fire time.

Timestamps are integers (milliseconds).  The external `sanitizeHtml`
library (out of scope for the core) is treated as the identity on its
input; `.trim()` is `String.trim`.
-/

namespace Echoes

/-- Message record as stored by the Mongo schema of the server: fields
`user`, `text`, `time`, `deleted` (default false), `edited` (default
false), `editTime` (optional), `readBy` (array of names).  We add the
document id explicitly. -/
structure Msg where
  id : Nat
  user : String
  text : String
  time : Int
  deleted : Bool := false
  edited : Bool := false
  editTime : Option Int := none
  readBy : List String := []
deriving Repr, DecidableEq

/-- Audience of an outbound socket.io send: `io.emit` (all clients),
`socket.broadcast.emit` (all clients except one), or `socket.emit`
(one client). -/
inductive Audience where
  | all : Audience
  | allExcept : Nat → Audience
  | one : Nat → Audience
deriving Repr, DecidableEq

/-- Outbound events the server emits. `typingObj` is the structured
typing payload with user and timestamp; `typingRaw` is the raw payload
forwarded verbatim by the second, duplicated typing listener of the
earlier server variant. -/
inductive Event where
  | message : Msg → Event
  | messageHistory : List Msg → Event
  | roomUsers : List String → Event
  | deleteMessage : Nat → Event
  | editMessage : Nat → String → Int → Event
  | messageRead : Nat → String → Event
  | typingObj : String → Int → Event
  | typingRaw : String → Event
deriving Repr, DecidableEq

/-- One send: an audience together with the event delivered to it. -/
structure Send where
  aud : Audience
  ev : Event
deriving Repr, DecidableEq

/-- In-memory `onlineUsers` map, socket id to display name, in insertion
order (a JS Map preserves insertion order and updates in place). -/
abbrev Registry := List (Nat × String)

/-- Map.set: update the entry in place when the key is present, append
otherwise. -/
def setNameEntry (reg : Registry) (cid : Nat) (nm : String) : Registry :=
  if reg.any (fun p => p.1 == cid) then
    reg.map (fun p => if p.1 == cid then (cid, nm) else p)
  else
    reg ++ [(cid, nm)]

/-- Expression `onlineUsers.get(socket.id) || 'Anonymous'`. -/
def nameOf (reg : Registry) (cid : Nat) : String :=
  ((reg.find? (fun p => p.1 == cid)).map (fun p => p.2)).getD "Anonymous"

/-- Expression `Array.from(onlineUsers.values())`. -/
def rosterValues (reg : Registry) : List String :=
  reg.map (fun p => p.2)

/-- Store is the Mongo message collection in insertion order. -/
abbrev Store := List Msg

/-- Query `Message.findOne(/- _id: messageId -/)`: first document with the
given id. -/
def findById (store : Store) (mid : Nat) : Option Msg :=
  store.find? (fun m => m.id == mid)

/-- Query `Message.updateOne` on a single id: rewrite the document(s)
carrying that id with the given field update. -/
def updateById (store : Store) (mid : Nat) (f : Msg → Msg) : Store :=
  store.map (fun m => if m.id == mid then f m else m)

/-- Stable insertion into a time-ascending list: a message goes after
every earlier message whose time is not greater. -/
def insertByTime (m : Msg) : List Msg → List Msg
  | [] => [m]
  | x :: xs =>
    if m.time < x.time then m :: x :: xs else x :: insertByTime m xs

/-- Stable sort by `time` ascending (ties keep insertion order). -/
def sortByTime : List Msg → List Msg
  | [] => []
  | x :: xs => insertByTime x (sortByTime xs)

/-- Query `Message.find(/- deleted: false -/).sort(/- time: 1 -/).limit(n)`:
non-deleted messages, time ascending (stable, so ties keep insertion
order), capped at `limit`. -/
def listActive (store : Store) (limit : Nat) : List Msg :=
  (sortByTime (store.filter (fun m => !m.deleted))).take limit

/-- Whitespace characters stripped by the JS `.trim()`. -/
def isJsSpace (c : Char) : Bool :=
  c == ' ' || c == '\t' || c == '\n' || c == '\r'

/-- Model of JS `String.prototype.trim`: strip leading and trailing
whitespace characters. -/
def jsTrim (s : String) : String :=
  ⟨((s.data.dropWhile isJsSpace).reverse.dropWhile isJsSpace).reverse⟩

/-- Expression pattern `(raw || 'fallback').trim() || 'fallback'` applied to
an optional string field: absent or empty input falls back, otherwise the
trimmed value unless it trims to empty. -/
def nameOrDefault (raw : Option String) (fallback : String) : String :=
  match raw with
  | none => fallback
  | some s =>
    if s = "" then fallback
    else if jsTrim s = "" then fallback else jsTrim s

/-- Timestamp field of an inbound send-message request. `msg.time` is
absent (or falsy, e.g. the empty string), or a supplied value that either
parses to a date or does not (`new Date(x)` yields an Invalid Date). -/
inductive TimeField where
  | absent : TimeField
  | unparseable : TimeField
  | valid : Int → TimeField
deriving Repr, DecidableEq

/-- Handler `socket.on('message', ...)` of the server: sanitize the
username and remember it in `onlineUsers`, then `Message.create` with
`text: sanitizeHtml(msg.text || '')` and
`time: msg.time ? new Date(msg.time) : new Date()`, then `io.emit` the
new document and the roster.  `Message.create` rejects (caught, so the
handler becomes a no-op with no sends) when a required String field is
empty — the schema has `text: required` and Mongoose's required check for
strings demands non-empty — or when the supplied time is an Invalid Date
(Date cast failure). -/
def onMessageEvent (store : Store) (reg : Registry) (sender : Nat)
    (msgUser : Option String) (msgText : Option String)
    (msgTime : TimeField) (now : Int) (nextId : Nat) :
    Store × Registry × List Send :=
  let username := nameOrDefault msgUser "Anonymous"
  let reg2 := setNameEntry reg sender username
  let text := msgText.getD ""
  match msgTime with
  | .unparseable => (store, reg2, [])
  | tf =>
    if text = "" then (store, reg2, [])
    else
      let t := match tf with
        | .valid v => v
        | _ => now
      let doc : Msg :=
        { id := nextId, user := username, text := text, time := t }
      (store ++ [doc], reg2,
        [⟨.all, .message doc⟩, ⟨.all, .roomUsers (rosterValues reg2)⟩])

/-- Handler `socket.on('delete-message', ...)`: look the message up, and
only when it exists and its stored `user` equals the requesting
connection's registered name, set `deleted: true` and `io.emit` the id;
otherwise do nothing. -/
def onDeleteMessage (store : Store) (reg : Registry) (sender : Nat)
    (mid : Nat) : Store × List Send :=
  let username := nameOf reg sender
  match findById store mid with
  | some m =>
    if m.user = username then
      (updateById store mid (fun x => { x with deleted := true }),
        [⟨.all, .deleteMessage mid⟩])
    else (store, [])
  | none => (store, [])

/-- Handler `socket.on('edit-message', ...)`: requires the message to
exist and its `user` to equal the requester's registered name; then with
`fiveMinutesAgo = now - 5*60*1000`, proceeds only when
`!message.editTime || message.editTime < fiveMinutesAgo`; on success
replaces `text`, sets `edited: true` and `editTime` to now, and
`io.emit`s the edit; in every other case nothing changes and nothing is
sent. -/
def onEditMessage (store : Store) (reg : Registry) (sender : Nat)
    (mid : Nat) (newText : String) (now : Int) : Store × List Send :=
  let username := nameOf reg sender
  match findById store mid with
  | some m =>
    if m.user = username then
      let fiveMinutesAgo := now - 5 * 60 * 1000
      match m.editTime with
      | none =>
        (updateById store mid (fun x =>
            { x with text := newText, edited := true, editTime := some now }),
          [⟨.all, .editMessage mid newText now⟩])
      | some t =>
        if t < fiveMinutesAgo then
          (updateById store mid (fun x =>
              { x with text := newText, edited := true, editTime := some now }),
            [⟨.all, .editMessage mid newText now⟩])
        else (store, [])
    else (store, [])
  | none => (store, [])

/-- Handler `socket.on('message-read', ...)`: when the message exists and
`readBy` does not already include the requester's registered name, add
the name (`addToSet`: append when absent) and `io.emit` the receipt;
otherwise nothing happens. -/
def onMessageRead (store : Store) (reg : Registry) (sender : Nat)
    (mid : Nat) : Store × List Send :=
  let username := nameOf reg sender
  match findById store mid with
  | some m =>
    if username ∈ m.readBy then (store, [])
    else
      (updateById store mid (fun x =>
          { x with readBy := x.readBy ++ [username] }),
        [⟨.all, .messageRead mid username⟩])
  | none => (store, [])

/-- Handler `socket.on('typing', ...)` of the feature-complete server:
derive the subject name, remember it in `onlineUsers`, broadcast the
structured typing payload to everyone except the sender, and `io.emit`
the roster to all. -/
def onTyping (reg : Registry) (sender : Nat) (payloadUser : Option String)
    (now : Int) : Registry × List Send :=
  let who := nameOrDefault payloadUser "Someone"
  let reg2 := setNameEntry reg sender who
  (reg2,
    [⟨.allExcept sender, .typingObj who now⟩,
     ⟨.all, .roomUsers (rosterValues reg2)⟩])

/-- Connection sequence of `io.on('connection', ...)`: register the
newcomer as Anonymous, send the filtered 500-message history snapshot to
the new socket only, install the handlers, and finally send the current
roster to the new socket only (`socket.emit('room-users', ...)`). -/
def connectionSequence (store : Store) (reg : Registry) (newId : Nat) :
    Registry × List Send :=
  let reg2 := setNameEntry reg newId "Anonymous"
  (reg2,
    [⟨.one newId, .messageHistory (listActive store 500)⟩,
     ⟨.one newId, .roomUsers (rosterValues reg2)⟩])

/-- Modelled from the spec (section 4.5, the sequence the claim asserts,
for comparison with `connectionSequence` above): roster snapshot to the
newcomer only, then the history snapshot to the newcomer only, then the
updated roster broadcast to every client. -/
def claimedConnectionSequence (store : Store) (reg : Registry)
    (newId : Nat) : Registry × List Send :=
  let reg2 := setNameEntry reg newId "Anonymous"
  (reg2,
    [⟨.one newId, .roomUsers (rosterValues reg2)⟩,
     ⟨.one newId, .messageHistory (listActive store 500)⟩,
     ⟨.all, .roomUsers (rosterValues reg2)⟩])

/-- First `socket.on('typing', ...)` listener of the earlier server
variant: broadcast the structured payload to everyone except the
sender. -/
def earlyTypingListenerA (sender : Nat) (payloadUser : Option String)
    (now : Int) : List Send :=
  [⟨.allExcept sender, .typingObj (nameOrDefault payloadUser "Someone") now⟩]

/-- Second `socket.on('typing', ...)` listener registered on the same
socket right below the first one in the earlier server variant: broadcast
the received payload verbatim to everyone except the sender. -/
def earlyTypingListenerB (sender : Nat) (payloadUser : Option String) :
    List Send :=
  [⟨.allExcept sender, .typingRaw (payloadUser.getD "")⟩]

/-- Processing one inbound typing event on the earlier server variant:
socket.io invokes every listener registered for the event name, in
registration order, so both listeners run and both broadcast. -/
def earlyServerTyping (sender : Nat) (payloadUser : Option String)
    (now : Int) : List Send :=
  earlyTypingListenerA sender payloadUser now ++
    earlyTypingListenerB sender payloadUser

/-- Predicate picking out typing broadcasts among sends. -/
def isTypingSend (s : Send) : Bool :=
  match s.ev with
  | .typingObj _ _ => true
  | .typingRaw _ => true
  | _ => false

/-! Client typing aggregator.  Both client variants keep a set
`typingUsers` of subject names, and use `setTimeout(..., 2000)` to delete
a name 2000 ms after an event.  The evolved client additionally keeps a
map `typingTimersRef` from name to the pending timeout handle, and
`clearTimeout`s the previous handle before scheduling a new one; the
Chat.js variant schedules a fresh timeout on every event without ever
cancelling.  Timers are modelled as a list of (subject, fireTime)
entries; a fired timer deletes its subject from the set and disappears,
and cancelling removes the entry before it fires. -/

/-- Aggregator state: the currently displayed set of typing subjects and
the pending timeouts as (subject, scheduled fire time) entries. -/
structure AggState where
  typingUsers : List String
  timers : List (String × Int)
deriving Repr, DecidableEq

/-- Initial aggregator state: nobody typing, no pending timer. -/
def AggState.init : AggState := ⟨[], []⟩

/-- Run every pending timeout whose fire time has passed (at or before
`t`): each such timeout deletes its subject from `typingUsers` and is
removed from the pending list.  This realises the event loop delivering
due `setTimeout` callbacks before anything scheduled later at `t`. -/
def fireDue (s : AggState) (t : Int) : AggState :=
  { typingUsers := s.typingUsers.filter (fun u =>
      !(s.timers.any (fun p => p.1 == u && p.2 ≤ t))),
    timers := s.timers.filter (fun p => !(p.2 ≤ t)) }

/-- Insert into the `typingUsers` set (a JS Set add: no duplicate). -/
def addUser (users : List String) (u : String) : List String :=
  if u ∈ users then users else users ++ [u]

/-- Evolved-client `socket.on('typing', ...)` body at time `now`: add the
subject to the set, `clearTimeout` the subject's pending timer when one
exists, and schedule a deletion 2000 ms from now. -/
def aggEventCancel (s : AggState) (u : String) (now : Int) : AggState :=
  { typingUsers := addUser s.typingUsers u,
    timers := s.timers.filter (fun p => !(p.1 == u)) ++ [(u, now + 2000)] }

/-- Chat.js `socket.on('typing', ...)` body at time `now`: add the subject
to the set and schedule a deletion 2000 ms from now, without cancelling
any pending timer for the same subject. -/
def aggEventNoCancel (s : AggState) (u : String) (now : Int) : AggState :=
  { typingUsers := addUser s.typingUsers u,
    timers := s.timers ++ [(u, now + 2000)] }

/-- Run a time-ordered list of (time, subject) typing facts through an
aggregator step function, delivering due timeouts before each fact. -/
def runAgg (step : AggState → String → Int → AggState)
    (facts : List (Int × String)) : AggState :=
  facts.foldl (fun s f => step (fireDue s f.1) f.2 f.1) AggState.init

/-- Whether the evolved-client aggregator reports `u` as typing at query
time `q`, after the given time-ordered facts (due timeouts delivered
first). -/
def activeCancel (facts : List (Int × String)) (u : String) (q : Int) :
    Bool :=
  ((fireDue (runAgg aggEventCancel facts) q).typingUsers).contains u

/-- Whether the Chat.js aggregator reports `u` as typing at query time
`q`, after the given time-ordered facts. -/
def activeNoCancel (facts : List (Int × String)) (u : String) (q : Int) :
    Bool :=
  ((fireDue (runAgg aggEventNoCancel facts) q).typingUsers).contains u

/-! Client reconciler (messages view). -/

/-- Reconciler state: the visible message sequence, whether the view is
at the bottom, and the unseen-message badge count. -/
structure RecState where
  messages : List Msg
  isAtBottom : Bool
  unseenCount : Nat
deriving Repr, DecidableEq

/-- Handler `socket.on('message-history', ...)` of the evolved client:
`setMessages(history || [])`, then scroll to the end, `setIsAtBottom(true)`
and `setUnseenCount(0)`. -/
def recOnHistory (_s : RecState) (history : List Msg) : RecState :=
  { messages := history, isAtBottom := true, unseenCount := 0 }

/-- Handler `socket.on('message-history', ...)` of the Chat.js client:
only `setMessages(history || [])`; neither `isAtBottom` nor
`unseenCount` is touched. -/
def recOnHistoryNoReset (s : RecState) (history : List Msg) : RecState :=
  { s with messages := history }

/-- Handler `socket.on('message', ...)` of both client variants: append
the message to the sequence, and increment `unseenCount` exactly when
`isAtBottom` is false. -/
def recOnMessage (s : RecState) (m : Msg) : RecState :=
  { s with
    messages := s.messages ++ [m],
    unseenCount := if s.isAtBottom then s.unseenCount else s.unseenCount + 1 }

/-! Helper lemmas about the store operations. -/

/-- Lookup after an id-preserving single-id update: the found document is
the updated one. -/
theorem find_updateById (f : Msg → Msg) (hf : ∀ x, (f x).id = x.id)
    (mid : Nat) :
    ∀ (store : Store) (m : Msg),
      findById store mid = some m →
      findById (updateById store mid f) mid = some (f m) := by
  intro store
  induction store with
  | nil => intro m h; simp [findById] at h
  | cons x xs ih =>
    intro m h
    by_cases hx : (x.id == mid) = true
    · rw [findById,
        List.find?_cons_of_pos (p := fun y : Msg => y.id == mid) xs hx] at h
      obtain rfl : x = m := Option.some.inj h
      rw [updateById, List.map_cons, if_pos hx, findById,
        List.find?_cons_of_pos (p := fun y : Msg => y.id == mid) _
          (by simpa [hf x] using hx)]
    · have hx' : ¬ ((fun y => y.id == mid) x = true) := hx
      rw [findById, List.find?_cons_of_neg xs hx'] at h
      rw [updateById, List.map_cons, if_neg hx, findById,
        List.find?_cons_of_neg (p := fun y : Msg => y.id == mid) _ hx']
      exact ih m h

/-- Every document carrying the deleted id after a soft delete is marked
deleted. -/
theorem updateById_deleted (store : Store) (mid : Nat) (x : Msg)
    (hx : x ∈ updateById store mid (fun y => { y with deleted := true }))
    (hid : x.id = mid) : x.deleted = true := by
  rw [updateById] at hx
  obtain ⟨y, hy, hxy⟩ := List.mem_map.mp hx
  by_cases h : (y.id == mid) = true
  · rw [if_pos h] at hxy; rw [← hxy]
  · rw [if_neg h] at hxy
    subst hxy
    exact absurd (by simpa using hid) (by simpa using h)

/-- Members of an insertion are the inserted element or old members. -/
theorem mem_insertByTime (m x : Msg) :
    ∀ l : List Msg, x ∈ insertByTime m l → x = m ∨ x ∈ l := by
  intro l
  induction l with
  | nil => intro h; simpa [insertByTime] using h
  | cons y ys ih =>
    intro h
    rw [insertByTime] at h
    by_cases hc : m.time < y.time
    · rw [if_pos hc, List.mem_cons] at h
      exact h
    · rw [if_neg hc, List.mem_cons] at h
      rcases h with h | h
      · rw [h]
        exact Or.inr (List.mem_cons_self y ys)
      · rcases ih h with h2 | h2
        · exact Or.inl h2
        · exact Or.inr (List.mem_cons_of_mem y h2)

/-- Members of the sorted list are members of the original list. -/
theorem mem_sortByTime (x : Msg) :
    ∀ l : List Msg, x ∈ sortByTime l → x ∈ l := by
  intro l
  induction l with
  | nil => intro h; simp [sortByTime] at h
  | cons y ys ih =>
    intro h
    rw [sortByTime] at h
    rcases mem_insertByTime y x (sortByTime ys) h with h2 | h2
    · rw [h2]
      exact List.mem_cons_self y ys
    · exact List.mem_cons_of_mem y (ih h2)

/-- Members of a `listActive` result come from the store and are not
deleted. -/
theorem mem_listActive (store : Store) (limit : Nat) (x : Msg)
    (hx : x ∈ listActive store limit) : x ∈ store ∧ x.deleted = false := by
  have h1 : x ∈ sortByTime (store.filter (fun m => !m.deleted)) :=
    List.mem_of_mem_take hx
  have h2 : x ∈ store.filter (fun m => !m.deleted) :=
    mem_sortByTime x _ h1
  have h3 := List.mem_filter.mp h2
  exact ⟨h3.1, by simpa using h3.2⟩

/-- The name just written into the registry is part of the roster. -/
theorem mem_rosterValues_setNameEntry (reg : Registry) (cid : Nat)
    (nm : String) : nm ∈ rosterValues (setNameEntry reg cid nm) := by
  rw [setNameEntry]
  by_cases h : reg.any (fun p => p.1 == cid) = true
  · rw [if_pos h]
    obtain ⟨p, hp, hpc⟩ := List.any_eq_true.mp h
    refine List.mem_map.mpr ⟨(cid, nm), List.mem_map.mpr ⟨p, hp, ?_⟩, rfl⟩
    rw [if_pos hpc]
  · rw [if_neg h, rosterValues, List.map_append]
    exact List.mem_append_right _ (by simp)

/-! Claim theorems. -/

/-- Claim C1: a delete-message or edit-message event whose requesting
connection's registered name differs from the target message's stored
author leaves the message's state unchanged and emits no broadcast; for
delete, when the names match, the handler marks the message deleted and
broadcasts its id to all clients. -/
theorem delete_edit_authorization (store : Store) (reg : Registry)
    (sender mid : Nat) (newText : String) (now : Int) (m : Msg)
    (h : findById store mid = some m) :
    (m.user ≠ nameOf reg sender →
      onDeleteMessage store reg sender mid = (store, []) ∧
      onEditMessage store reg sender mid newText now = (store, [])) ∧
    (m.user = nameOf reg sender →
      (∀ x ∈ (onDeleteMessage store reg sender mid).1,
          x.id = mid → x.deleted = true) ∧
      (onDeleteMessage store reg sender mid).2 =
        [⟨Audience.all, Event.deleteMessage mid⟩]) := by
  constructor
  · intro hne
    constructor
    · simp [onDeleteMessage, h, hne]
    · simp [onEditMessage, h, hne]
  · intro he
    have hres : onDeleteMessage store reg sender mid =
        (updateById store mid (fun y => { y with deleted := true }),
          [⟨Audience.all, Event.deleteMessage mid⟩]) := by
      simp [onDeleteMessage, h, he]
    constructor
    · intro x hx hid
      rw [hres] at hx
      exact updateById_deleted store mid x hx hid
    · rw [hres]

/-- Claim C1 witness: a concrete denied delete and edit by a non-author,
and a concrete authorised delete broadcast. -/
theorem delete_edit_authorization_witness :
    (onDeleteMessage [{ id := 0, user := "alice", text := "hi", time := 0 }]
        [(1, "bob")] 1 0 =
      ([{ id := 0, user := "alice", text := "hi", time := 0 }], []) ∧
     onEditMessage [{ id := 0, user := "alice", text := "hi", time := 0 }]
        [(1, "bob")] 1 0 "x" 99 =
      ([{ id := 0, user := "alice", text := "hi", time := 0 }], [])) ∧
    (onDeleteMessage [{ id := 0, user := "alice", text := "hi", time := 0 }]
        [(2, "alice")] 2 0).2 =
      [⟨Audience.all, Event.deleteMessage 0⟩] :=
  ⟨(delete_edit_authorization
      [{ id := 0, user := "alice", text := "hi", time := 0 }]
      [(1, "bob")] 1 0 "x" 99 _ (by rfl)).1 (by decide),
   ((delete_edit_authorization
      [{ id := 0, user := "alice", text := "hi", time := 0 }]
      [(2, "alice")] 2 0 "x" 99 _ (by rfl)).2 (by rfl)).2⟩

/-- Claim C2 counterexample: with `lastEditAt` exactly five minutes before
`now` (now = 300000 ms, lastEditAt = 0), the claim's strict condition
`now - lastEditAt < 5 minutes` does not hold, so the claim requires the
edit to succeed; the handler's test `editTime < now - 300000` is false at
equality, so it denies: store unchanged, nothing broadcast. -/
theorem edit_rate_limit_counterexample :
    onEditMessage
      [{ id := 0, user := "alice", text := "old", time := 0,
         editTime := some 0 }]
      [(7, "alice")] 7 0 "new" 300000 =
      ([{ id := 0, user := "alice", text := "old", time := 0,
          editTime := some 0 }], []) := by
  decide

/-- Claim C2 (amended): an edit by the author is rate-limited exactly when
`lastEditAt` is non-null and `now - lastEditAt ≤ 5` minutes (boundary
inclusive: equality is also denied); otherwise the edit succeeds, the
body is replaced, `edited` is set, and `lastEditAt` becomes `now`.  The
spec's concrete examples are unaffected: lastEditAt = now - 4m59s is
denied, lastEditAt = now - 5m1s succeeds. -/
theorem edit_rate_limit (store : Store) (reg : Registry)
    (sender mid : Nat) (newText : String) (now : Int) (m : Msg)
    (h : findById store mid = some m)
    (hauth : m.user = nameOf reg sender) :
    (∀ t, m.editTime = some t → now - t ≤ 5 * 60 * 1000 →
      onEditMessage store reg sender mid newText now = (store, [])) ∧
    ((m.editTime = none ∨
        ∃ t, m.editTime = some t ∧ 5 * 60 * 1000 < now - t) →
      (onEditMessage store reg sender mid newText now).2 =
        [⟨Audience.all, Event.editMessage mid newText now⟩] ∧
      findById (onEditMessage store reg sender mid newText now).1 mid =
        some { m with text := newText, edited := true,
                      editTime := some now }) := by
  constructor
  · intro t ht hle
    have hnlt : ¬ (t < now - 5 * 60 * 1000) := by omega
    simp only [onEditMessage, h, hauth, ht]
    simp
    omega
  · intro hcase
    have hres : onEditMessage store reg sender mid newText now =
        (updateById store mid (fun x =>
            { x with text := newText, edited := true,
                     editTime := some now }),
          [⟨Audience.all, Event.editMessage mid newText now⟩]) := by
      rcases hcase with hnone | ⟨t, ht, hlt⟩
      · simp [onEditMessage, h, hauth, hnone]
      · have hlt' : t < now - 5 * 60 * 1000 := by omega
        simp only [onEditMessage, h, hauth, ht]
        simp
        omega
    rw [hres]
    exact ⟨rfl, find_updateById
      (fun x => { x with text := newText, edited := true,
                         editTime := some now })
      (fun _ => rfl) mid store m h⟩

/-- Claim C2 witness: the spec's own boundary examples — an edit 4m59s
after the last edit is denied, one 5m01s after succeeds and rewrites the
stored document. -/
theorem edit_rate_limit_witness :
    onEditMessage
      [{ id := 0, user := "alice", text := "old", time := 0,
         editTime := some 0 }]
      [(7, "alice")] 7 0 "new" 299000 =
      ([{ id := 0, user := "alice", text := "old", time := 0,
          editTime := some 0 }], []) ∧
    findById (onEditMessage
      [{ id := 0, user := "alice", text := "old", time := 0,
         editTime := some 0 }]
      [(7, "alice")] 7 0 "new" 301000).1 0 =
      some { id := 0, user := "alice", text := "new", time := 0,
             edited := true, editTime := some 301000 } :=
  ⟨(edit_rate_limit
      [{ id := 0, user := "alice", text := "old", time := 0,
         editTime := some 0 }]
      [(7, "alice")] 7 0 "new" 299000 _ (by rfl) (by rfl)).1 0
      (by rfl) (by decide),
   ((edit_rate_limit
      [{ id := 0, user := "alice", text := "old", time := 0,
         editTime := some 0 }]
      [(7, "alice")] 7 0 "new" 301000 _ (by rfl) (by rfl)).2
      (Or.inr ⟨0, rfl, by decide⟩)).2⟩

/-- Claim C5: after a successful soft delete of message id X, X is absent
from `listActive` for every limit, while a direct lookup by id still
returns the tombstoned record with deleted = true, and no record is
physically removed (the store's length is unchanged). -/
theorem softDelete_exclusion (store : Store) (reg : Registry)
    (sender mid : Nat) (m : Msg) (h : findById store mid = some m)
    (hauth : m.user = nameOf reg sender) :
    (∀ limit,
      ∀ x ∈ listActive (onDeleteMessage store reg sender mid).1 limit,
        x.id ≠ mid) ∧
    findById (onDeleteMessage store reg sender mid).1 mid =
      some { m with deleted := true } ∧
    (onDeleteMessage store reg sender mid).1.length = store.length := by
  have hres : (onDeleteMessage store reg sender mid).1 =
      updateById store mid (fun y => { y with deleted := true }) := by
    simp [onDeleteMessage, h, hauth]
  refine ⟨?_, ?_, ?_⟩
  · intro limit x hx hid
    have hmem := mem_listActive _ _ _ hx
    rw [hres] at hmem
    have hdel := updateById_deleted store mid x hmem.1 hid
    rw [hmem.2] at hdel
    exact Bool.false_ne_true hdel
  · rw [hres]
    exact find_updateById (fun y => { y with deleted := true })
      (fun _ => rfl) mid store m h
  · rw [hres, updateById]
    exact List.length_map _ _

/-- Claim C5 witness: deleting the only message of a one-message store
leaves a tombstone that a direct lookup still returns, with the store
length unchanged. -/
theorem softDelete_exclusion_witness :
    findById (onDeleteMessage
        [{ id := 0, user := "alice", text := "hi", time := 0 }]
        [(1, "alice")] 1 0).1 0 =
      some { id := 0, user := "alice", text := "hi", time := 0,
             deleted := true } ∧
    (onDeleteMessage [{ id := 0, user := "alice", text := "hi", time := 0 }]
        [(1, "alice")] 1 0).1.length = 1 :=
  ⟨(softDelete_exclusion
      [{ id := 0, user := "alice", text := "hi", time := 0 }]
      [(1, "alice")] 1 0 _ (by rfl) (by rfl)).2.1,
   (softDelete_exclusion
      [{ id := 0, user := "alice", text := "hi", time := 0 }]
      [(1, "alice")] 1 0 _ (by rfl) (by rfl)).2.2⟩

/-- Helper: a message-read event whose reader is already in `readBy` is a
no-op with no sends. -/
theorem onMessageRead_already (st : Store) (reg : Registry)
    (sender mid : Nat) (mm : Msg) (hf : findById st mid = some mm)
    (hin : nameOf reg sender ∈ mm.readBy) :
    onMessageRead st reg sender mid = (st, []) := by
  simp [onMessageRead, hf, hin]

/-- Claim C6: `message-read` is idempotent.  Under the store invariant
that a name appears in `readBy` at most once, two consecutive
message-read events for the same id and reader leave `readBy` containing
the reader exactly once; the second call changes nothing and broadcasts
nothing; and when the name was absent, the first call appends it and
broadcasts exactly one read event. -/
theorem markRead_idempotent (store : Store) (reg : Registry)
    (sender mid : Nat) (m : Msg) (h : findById store mid = some m)
    (hc : m.readBy.count (nameOf reg sender) ≤ 1) :
    (∃ m2,
      findById (onMessageRead (onMessageRead store reg sender mid).1
          reg sender mid).1 mid = some m2 ∧
      m2.readBy.count (nameOf reg sender) = 1) ∧
    onMessageRead (onMessageRead store reg sender mid).1 reg sender mid =
      ((onMessageRead store reg sender mid).1, []) ∧
    (nameOf reg sender ∉ m.readBy →
      (onMessageRead store reg sender mid).2 =
        [⟨Audience.all, Event.messageRead mid (nameOf reg sender)⟩] ∧
      findById (onMessageRead store reg sender mid).1 mid =
        some { m with readBy := m.readBy ++ [nameOf reg sender] }) := by
  by_cases hmem : nameOf reg sender ∈ m.readBy
  · have h1 : onMessageRead store reg sender mid = (store, []) :=
      onMessageRead_already store reg sender mid m h hmem
    refine ⟨⟨m, ?_, ?_⟩, ?_, fun hnot => absurd hmem hnot⟩
    · rw [h1]
      show findById (onMessageRead store reg sender mid).1 mid = some m
      rw [h1]
      exact h
    · have hpos : 0 < m.readBy.count (nameOf reg sender) :=
        List.count_pos_iff.mpr hmem
      omega
    · rw [h1]
      exact h1
  · have hres1 : onMessageRead store reg sender mid =
        (updateById store mid (fun x =>
            { x with readBy := x.readBy ++ [nameOf reg sender] }),
          [⟨Audience.all, Event.messageRead mid (nameOf reg sender)⟩]) := by
      simp [onMessageRead, h, hmem]
    have hfind1 : findById (onMessageRead store reg sender mid).1 mid =
        some { m with readBy := m.readBy ++ [nameOf reg sender] } := by
      rw [hres1]
      exact find_updateById
        (fun x => { x with readBy := x.readBy ++ [nameOf reg sender] })
        (fun _ => rfl) mid store m h
    have hmem2 : nameOf reg sender ∈
        ({ m with readBy := m.readBy ++ [nameOf reg sender] } : Msg).readBy := by
      simp
    have hres2 : onMessageRead (onMessageRead store reg sender mid).1
        reg sender mid = ((onMessageRead store reg sender mid).1, []) :=
      onMessageRead_already _ reg sender mid _ hfind1 hmem2
    refine ⟨⟨{ m with readBy := m.readBy ++ [nameOf reg sender] }, ?_, ?_⟩,
      hres2, fun _ => ⟨by rw [hres1], hfind1⟩⟩
    · rw [hres2]; exact hfind1
    · have hzero : m.readBy.count (nameOf reg sender) = 0 :=
        List.count_eq_zero.mpr hmem
      simp [List.count_append, hzero]

/-- Claim C6 witness: reader bob marks alice's message read twice; the
second call is a no-op with no broadcast, the first broadcasts once. -/
theorem markRead_idempotent_witness :
    onMessageRead (onMessageRead
        [{ id := 0, user := "alice", text := "hi", time := 0 }]
        [(1, "bob")] 1 0).1 [(1, "bob")] 1 0 =
      ((onMessageRead [{ id := 0, user := "alice", text := "hi", time := 0 }]
          [(1, "bob")] 1 0).1, []) ∧
    (onMessageRead [{ id := 0, user := "alice", text := "hi", time := 0 }]
        [(1, "bob")] 1 0).2 =
      [⟨Audience.all, Event.messageRead 0 "bob"⟩] :=
  ⟨(markRead_idempotent
      [{ id := 0, user := "alice", text := "hi", time := 0 }]
      [(1, "bob")] 1 0 _ (by rfl) (by decide)).2.1,
   ((markRead_idempotent
      [{ id := 0, user := "alice", text := "hi", time := 0 }]
      [(1, "bob")] 1 0 _ (by rfl) (by decide)).2.2 (by decide)).1⟩

/-- Claim C3 (defect evidence, with the compliant variant alongside): with
typing facts for bob at t = 0 ms and t = 1000 ms, the Chat.js aggregator,
which never cancels the pending 2000 ms timer, reports bob inactive
already at t = 2001 ms, where the claim requires activity until
t = 3000 ms; the evolved aggregator with the timer map cancels and
restarts, matching the claim at 2001 ms, 2999 ms and 3001 ms, and both
variants agree on the single-event window (active at 1999 ms, inactive
at 2001 ms). -/
theorem typing_aggregator_refresh :
    activeNoCancel [(0, "bob"), (1000, "bob")] "bob" 2001 = false ∧
    activeCancel [(0, "bob"), (1000, "bob")] "bob" 2001 = true ∧
    activeCancel [(0, "bob"), (1000, "bob")] "bob" 2999 = true ∧
    activeCancel [(0, "bob"), (1000, "bob")] "bob" 3001 = false ∧
    activeCancel [(0, "bob")] "bob" 1999 = true ∧
    activeCancel [(0, "bob")] "bob" 2001 = false ∧
    activeNoCancel [(0, "bob")] "bob" 1999 = true ∧
    activeNoCancel [(0, "bob")] "bob" 2001 = false := by
  decide

/-- Claim C7 (defect evidence, with the single-relay path alongside): the
earlier server variant registers two typing listeners on the same socket,
so one inbound typing event from connection 0 yields two typing
broadcasts; the feature-complete server's single handler yields exactly
one, addressed to everyone except the sender. -/
theorem typing_relay_duplication :
    ((earlyServerTyping 0 (some "alice") 5).filter isTypingSend).length
      = 2 ∧
    (onTyping [] 0 (some "alice") 5).2.filter isTypingSend =
      [⟨Audience.allExcept 0, Event.typingObj "alice" 5⟩] := by
  decide

/-- Claim C4 counterexample: already on an empty store and registry, the
code's connection sequence differs from the claimed one — the code sends
the history snapshot first and then the roster to the newcomer only,
never broadcasting the updated roster to all clients. -/
theorem connection_order_counterexample :
    connectionSequence [] [] 0 ≠ claimedConnectionSequence [] [] 0 := by
  decide

/-- Claim C4 (amended): on a new connection the server performs exactly
two sends, both addressed to the new connection only: first the
message-history snapshot via listActive 500, then the roster, which by
then contains the newcomer's default name; no roster broadcast to the
other clients occurs during connection handling. -/
theorem connection_sequence_sends (store : Store) (reg : Registry)
    (newId : Nat) :
    (connectionSequence store reg newId).2 =
      [⟨Audience.one newId, Event.messageHistory (listActive store 500)⟩,
       ⟨Audience.one newId,
         Event.roomUsers (rosterValues
           (setNameEntry reg newId "Anonymous"))⟩] ∧
    (∀ s ∈ (connectionSequence store reg newId).2,
        s.aud = Audience.one newId) ∧
    "Anonymous" ∈ rosterValues (connectionSequence store reg newId).1 := by
  refine ⟨rfl, ?_, mem_rosterValues_setNameEntry reg newId "Anonymous"⟩
  intro s hs
  simp only [connectionSequence, List.mem_cons, List.not_mem_nil,
    or_false] at hs
  rcases hs with h | h <;> rw [h]

/-- Claim C4 witness: the two sends of a concrete connection sequence are
both addressed to the newcomer, and the roster it receives contains the
default name. -/
theorem connection_sequence_sends_witness :
    (⟨Audience.one 3, Event.messageHistory (listActive [] 500)⟩ :
      Send).aud = Audience.one 3 ∧
    "Anonymous" ∈ rosterValues (connectionSequence [] [] 3).1 :=
  ⟨(connection_sequence_sends [] [] 3).2.1 _ (by decide),
   (connection_sequence_sends [] [] 3).2.2⟩

/-- Claim C8 counterexample: a send-message with a supplied but
unparseable timestamp (and non-empty text) does not persist a message
with createdAt defaulted to now, as the claim requires: the create is
rejected on the Invalid Date, so the store stays empty and nothing is
broadcast (only the registry name update survives). -/
theorem message_unparseable_counterexample :
    onMessageEvent [] [] 0 (some "alice") (some "hi")
        TimeField.unparseable 1000 1 =
      ([], [(0, "alice")], []) := by
  decide

/-- Claim C8 (amended): for a send-message with non-empty text, the
stored message's createdAt equals the supplied timestamp when it is
parseable and defaults to the current server time when the timestamp is
absent; when a timestamp is supplied but unparseable, the create fails
instead, so no message is persisted and no message broadcast is
emitted. -/
theorem message_timestamp (store : Store) (reg : Registry) (sender : Nat)
    (mu : Option String) (mtext : String) (t now : Int) (nid : Nat)
    (htext : mtext ≠ "") :
    (onMessageEvent store reg sender mu (some mtext) (TimeField.valid t)
        now nid).1 =
      store ++ [{ id := nid, user := nameOrDefault mu "Anonymous",
                  text := mtext, time := t }] ∧
    (onMessageEvent store reg sender mu (some mtext) TimeField.absent
        now nid).1 =
      store ++ [{ id := nid, user := nameOrDefault mu "Anonymous",
                  text := mtext, time := now }] ∧
    (onMessageEvent store reg sender mu (some mtext) TimeField.unparseable
        now nid).1 = store ∧
    (onMessageEvent store reg sender mu (some mtext) TimeField.unparseable
        now nid).2.2 = [] := by
  refine ⟨?_, ?_, rfl, rfl⟩ <;> simp [onMessageEvent, htext]

/-- Claim C8 witness: a parseable supplied timestamp is stored as given;
an absent timestamp is replaced by the server time. -/
theorem message_timestamp_witness :
    (onMessageEvent [] [] 0 (some "bob") (some "hi") (TimeField.valid 42)
        1000 1).1 =
      [{ id := 1, user := nameOrDefault (some "bob") "Anonymous",
         text := "hi", time := 42 }] ∧
    (onMessageEvent [] [] 0 (some "bob") (some "hi") TimeField.absent
        1000 1).1 =
      [{ id := 1, user := nameOrDefault (some "bob") "Anonymous",
         text := "hi", time := 1000 }] :=
  ⟨(message_timestamp [] [] 0 (some "bob") "hi" 42 1000 1 (by decide)).1,
   (message_timestamp [] [] 0 (some "bob") "hi" 42 1000 1 (by decide)).2.1⟩

/-- Claim C9 (defect evidence, with the compliant variant alongside): on
a scrolled-up state with a stale counter of 5, the Chat.js
message-history handler only replaces the message list, leaving the
at-bottom flag false and the counter at 5, where the claim requires the
snapshot to force the flag true and the counter to zero; the evolved
client's handler forces both.  The live-message path, identical in the
two variants, appends the message and increments the counter exactly
when the view is not at the bottom. -/
theorem reconciler_history_divergence :
    recOnHistoryNoReset ⟨[], false, 5⟩
        [{ id := 0, user := "a", text := "x", time := 0 }] =
      ⟨[{ id := 0, user := "a", text := "x", time := 0 }], false, 5⟩ ∧
    recOnHistory ⟨[], false, 5⟩
        [{ id := 0, user := "a", text := "x", time := 0 }] =
      ⟨[{ id := 0, user := "a", text := "x", time := 0 }], true, 0⟩ ∧
    recOnMessage ⟨[], false, 0⟩
        { id := 0, user := "a", text := "x", time := 0 } =
      ⟨[{ id := 0, user := "a", text := "x", time := 0 }], false, 1⟩ ∧
    recOnMessage ⟨[], true, 4⟩
        { id := 0, user := "a", text := "x", time := 0 } =
      ⟨[{ id := 0, user := "a", text := "x", time := 0 }], true, 4⟩ := by
  decide

/-- Claim C10: a send-message whose text is absent, or empty after
sanitization, persists nothing and emits no broadcast: the schema's
required non-empty text makes the create fail, and the handler's catch
branch does nothing. -/
theorem empty_text_no_message (store : Store) (reg : Registry)
    (sender : Nat) (mu : Option String) (mtext : Option String)
    (mtime : TimeField) (now : Int) (nid : Nat)
    (h : mtext = none ∨ mtext = some "") :
    (onMessageEvent store reg sender mu mtext mtime now nid).1 = store ∧
    (onMessageEvent store reg sender mu mtext mtime now nid).2.2 = [] := by
  rcases h with h | h <;> subst h <;> cases mtime <;>
    simp [onMessageEvent]

/-- Claim C10 witness: a concrete send with empty text leaves the store
empty and sends nothing. -/
theorem empty_text_no_message_witness :
    (onMessageEvent [] [] 0 (some "alice") (some "") TimeField.absent
        1000 1).1 = [] ∧
    (onMessageEvent [] [] 0 (some "alice") (some "") TimeField.absent
        1000 1).2.2 = [] :=
  empty_text_no_message [] [] 0 (some "alice") (some "") TimeField.absent
    1000 1 (Or.inr rfl)

end Echoes
